import Mathlib

/-!
Verification development for the CADAI Python core
(`src/python/runner.py`, `src/python/manufacturing.py`).

The Python functions are shallowly embedded as executable Lean
definitions: duck-typed values become closed inductive types of
tagged variants, Python floats become rationals, fallible paths
become `Option`/`Except`.  Each definition keeps the source
function's name (camel-cased) and mirrors its control flow.
-/

namespace CADAI

/-! ## MeshIntegrityChecker: `_count_face_selector` / `count_degenerate_faces`
(`manufacturing.py` lines 94-153) -/

/-- One entry of a trimesh face indicator: either a face index or one
entry of a boolean mask (`_count_face_selector` distinguishes the two). -/
inductive SelVal where
  | idx (i : Int)
  | mask (b : Bool)
deriving DecidableEq, Repr

/-- `_count_face_selector(values)`: empty sequence counts 0; an
all-boolean sequence is a mask and counts its `True` entries; anything
else is an index list and counts its length. -/
def countFaceSelector (seq : List SelVal) : Int :=
  if seq = [] then 0
  else if seq.all (fun v => match v with | .mask _ => true | .idx _ => false) then
    ((seq.filter (fun v => match v with | .mask b => b | .idx _ => false)).length : Int)
  else (seq.length : Int)

/-- A per-face area value as seen through Python `float(area)`:
a finite value, a non-finite float (nan/inf), or a non-convertible
entry (where `float(...)` raises and the loop `continue`s). -/
inductive AreaVal where
  | num (q : ℚ)
  | nonfinite
  | nonnumeric
deriving DecidableEq, Repr

/-- The area-tier degeneracy test: degenerate iff not finite or `≤ 1e-12`. -/
def isDegenerateArea (a : AreaVal) : Bool :=
  match a with
  | .num q => decide (q ≤ 1 / 1000000000000)
  | .nonfinite => true
  | .nonnumeric => false

/-- The capability surface of a tessellated mesh as probed by
`count_degenerate_faces`: each indicator may be absent (`getattr`
returning `None`); `facesCount` is `len(mesh.faces)`.  Whether the
indicator was a value or a callable is immaterial to the value used. -/
structure Mesh where
  degenerate_faces : Option (List SelVal)
  nondegenerate_faces : Option (List SelVal)
  facesCount : Nat
  area_faces : Option (List AreaVal)
deriving DecidableEq, Repr

/-- `count_degenerate_faces(mesh)`: three-tier fallback —
direct indicator (clamped at 0), else `total - nondegenerate`
accepted only inside `[0, total]`, else the near-zero/non-finite
area count, else 0. -/
def countDegenerateFaces (m : Mesh) : Int :=
  match m.degenerate_faces with
  | some sel => max 0 (countFaceSelector sel)
  | none =>
    let tier2 : Option Int :=
      match m.nondegenerate_faces with
      | some sel =>
        let total : Int := (m.facesCount : Int)
        let nd := countFaceSelector sel
        if 0 ≤ nd ∧ nd ≤ total then some (total - nd) else none
      | none => none
    match tier2 with
    | some n => n
    | none =>
      match m.area_faces with
      | some areas => ((areas.filter isDegenerateArea).length : Int)
      | none => 0

/-! ## OrientationOptimizer: `cmd_orient` (`manufacturing.py` lines 268-357)

The per-candidate geometry (rotating the mesh with scipy, bounding box,
face normals/areas from trimesh) is external to this core; it is
abstracted as a function from a candidate rotation to the three metrics
the scoring loop reads.  The fixed candidate list, the cost function and
the selection loop are embedded exactly. -/

/-- A candidate rotation as Euler angles in degrees, axis order x-y-z. -/
abbrev Candidate := Int × Int × Int

/-- The fixed list of 12 candidate rotations from `cmd_orient`. -/
def orientCandidates : List Candidate :=
  [ (0, 0, 0),
    (90, 0, 0),
    (-90, 0, 0),
    (0, 90, 0),
    (0, -90, 0),
    (0, 0, 90),
    (180, 0, 0),
    (90, 90, 0),
    (90, 0, 90),
    (45, 0, 0),
    (0, 45, 0),
    (45, 45, 0) ]

/-- The three per-candidate metrics the scoring loop reads. -/
structure OrientMetrics where
  height : ℚ
  overhangPct : ℚ
  baseArea : ℚ

/-- `score = height * 1.0 + overhang_pct * 2.0 - base_area * 0.5`. -/
def orientScore (m : OrientMetrics) : ℚ :=
  m.height * 1 + m.overhangPct * 2 - m.baseArea * (1 / 2)

/-- The selection loop of `cmd_orient`: `best_score` starts at
`float('inf')` (encoded as `none`) and a candidate replaces the best
exactly when its score is strictly smaller. -/
def selectGo {α : Type} (f : α → ℚ) : Option (ℚ × α) → List α → Option (ℚ × α)
  | st, [] => st
  | none, c :: rest => selectGo f (some (f c, c)) rest
  | some b, c :: rest =>
      selectGo f (if f c < b.1 then some (f c, c) else some b) rest

/-- `cmd_orient`'s search: fold the strict-improvement update over the
fixed candidate list; `best_candidate` defaults to `(0,0,0)`. -/
def selectBestOrientation (metrics : Candidate → OrientMetrics) : Candidate :=
  match selectGo (fun c => orientScore (metrics c)) none orientCandidates with
  | some (_, c) => c
  | none => (0, 0, 0)

/-- Per-face data read by the base-area mask: the face centroid's
z-coordinate (`triangles_center[:, 2]`), the face normal's z-component
(`face_normals[:, 2]`) and the face area (`area_faces`). -/
structure FaceData where
  centroidZ : ℚ
  normalZ : ℚ
  area : ℚ

/-- `base_tolerance = height * 0.01 if height > 0 else 0.1`. -/
def baseTolerance (height : ℚ) : ℚ :=
  if 0 < height then height * (1 / 100) else 1 / 10

/-- `base_area`: sum of areas over faces with
`centroid.z < z_min + base_tolerance` and `normal.z < -0.9`. -/
def baseAreaOf (zMin height : ℚ) (faces : List FaceData) : ℚ :=
  ((faces.filter fun f =>
      decide (f.centroidZ < zMin + baseTolerance height) &&
      decide (f.normalZ < -(9 / 10 : ℚ))).map (fun f => f.area)).sum

/-- Modelled from the spec's words for comparison with `baseAreaOf`
(refinement check): the spec states the tolerance as
`max(height * 1%, 0.1)` instead of the source's conditional. -/
def specBaseAreaOf (zMin height : ℚ) (faces : List FaceData) : ℚ :=
  ((faces.filter fun f =>
      decide (f.centroidZ < zMin + max (height * (1 / 100)) (1 / 10)) &&
      decide (f.normalZ < -(9 / 10 : ℚ))).map (fun f => f.area)).sum

/-- The base-area computation restated from the amended claim's words:
per-face conditional contribution with the source's conditional
tolerance (`height*1%` when height is positive, else `0.1`). -/
def amendedBaseAreaOf (zMin height : ℚ) (faces : List FaceData) : ℚ :=
  (faces.map (fun f =>
    if f.centroidZ < zMin + (if 0 < height then height * (1 / 100) else 1 / 10) ∧
       f.normalZ < -(9 / 10 : ℚ) then f.area else 0)).sum

/-! ## ResultNormalizer: `_extract_exportables` / `_normalize_result_for_export`
(`runner.py` lines 33-118 and 189-209)

The duck-typed candidate tree is embedded as a closed inductive of
tagged variants, one per interface `add_candidate` probes, in the
source's precedence order.  A kernel shape (an object with `.wrapped`)
is identified by its Python object identity (`id(candidate)`), which is
what the `seen_ids` dedup keys on.  Wrapper objects whose accessor falls
through every rule end at the `type:<name>` invalid entry, carrying the
Python type name of the modelled wrapper. -/

/-- A scalar leaf (`isinstance(candidate, (int, float, bool))`),
rendered the way the f-string `f"scalar:{candidate}"` renders it. -/
inductive ScalarVal where
  | int (n : Int)
  | bool (b : Bool)
deriving DecidableEq, Repr

/-- Python `str` rendering of a scalar. -/
def ScalarVal.render : ScalarVal → String
  | .int n => toString n
  | .bool b => if b then "True" else "False"

/-- A `result` candidate tree as traversed by `add_candidate`. -/
inductive Cand where
  /-- Python `None`: ignored. -/
  | nil
  /-- A `str`/`bytes`/`bytearray`. -/
  | str (s : String)
  /-- A `Mapping`: keys are ignored, values are traversed in order. -/
  | map (vals : List Cand)
  /-- A `list`/`tuple`/`set`. -/
  | seq (vals : List Cand)
  /-- A Workplane-like object: `.vals()` returns `items`; when empty the
  rule falls through and, having no other interface, the object lands in
  the `type:` rule under its Python type name `tyName`. -/
  | wvals (items : List Cand) (tyName : String)
  /-- An object with a single-value accessor `.val()`; `inner = nil`
  models the accessor returning `None` (fall through to `type:`). -/
  | wval (inner : Cand) (tyName : String)
  /-- A BuildPart-like object exposing `.part`. -/
  | bpart (inner : Cand) (tyName : String)
  /-- A BuildSketch-like object exposing `.sketch`. -/
  | bsketch (inner : Cand) (tyName : String)
  /-- A kernel shape: an object exposing `.wrapped`, identified by its
  object identity `ident`. -/
  | shape (ident : Nat)
  /-- An `int`/`float`/`bool` scalar. -/
  | scalar (v : ScalarVal)
  /-- Any other object: invalid, reported by type name. -/
  | other (tyName : String)

/-- Traversal state: `found` is the ordered list of recorded shape
identities (its members double as `seen_ids`), `invalid` the ordered
list of invalid-entry descriptions. -/
structure ExtractState where
  found : List Nat
  invalid : List String
deriving DecidableEq, Repr

mutual

/-- `add_candidate` of `_extract_exportables`, rule order as in source. -/
def addCandidate : Cand → ExtractState → ExtractState
  | .nil, st => st
  | .str s, st => { st with invalid := st.invalid ++ ["string:" ++ s.take 40] }
  | .map vs, st => addCandidates vs st
  | .seq vs, st => addCandidates vs st
  | .wvals items tyName, st =>
      if items.isEmpty then
        { st with invalid := st.invalid ++ ["type:" ++ tyName] }
      else addCandidates items st
  | .wval inner tyName, st =>
      match inner with
      | .nil => { st with invalid := st.invalid ++ ["type:" ++ tyName] }
      | c => addCandidate c st
  | .bpart inner tyName, st =>
      match inner with
      | .nil => { st with invalid := st.invalid ++ ["type:" ++ tyName] }
      | c => addCandidate c st
  | .bsketch inner tyName, st =>
      match inner with
      | .nil => { st with invalid := st.invalid ++ ["type:" ++ tyName] }
      | c => addCandidate c st
  | .shape ident, st =>
      if ident ∈ st.found then st
      else { st with found := st.found ++ [ident] }
  | .scalar v, st => { st with invalid := st.invalid ++ ["scalar:" ++ v.render] }
  | .other tyName, st => { st with invalid := st.invalid ++ ["type:" ++ tyName] }

/-- Left-to-right traversal of a container's values. -/
def addCandidates : List Cand → ExtractState → ExtractState
  | [], st => st
  | c :: cs, st => addCandidates cs (addCandidate c st)

end

/-- `_extract_exportables(result)`: returns `(found, invalid)`. -/
def extractExportables (result : Cand) : List Nat × List String :=
  let st := addCandidate result ⟨[], []⟩
  (st.found, st.invalid)

/-- The value `_normalize_result_for_export` returns on success: the
single exportable, or a `Compound` grouping all of them. -/
inductive Normalized where
  | single (ident : Nat)
  | compound (idents : List Nat)
deriving DecidableEq, Repr

/-- The two `ValueError`s `_normalize_result_for_export` can raise. -/
inductive NormError where
  | noGeometry
  | mixedContent (examples : List String)
deriving DecidableEq, Repr

/-- `_normalize_result_for_export(result)`. -/
def normalizeResultForExport (result : Cand) : Except NormError Normalized :=
  let ex := extractExportables result
  if ex.1.isEmpty then .error .noGeometry
  else if ¬ ex.2.isEmpty then .error (.mixedContent (ex.2.take 3))
  else
    match ex.1 with
    | [e] => .ok (.single e)
    | es => .ok (.compound es)

/-! ## SolidRepairer: `_ensure_single_solid` (`runner.py` lines 121-186)

The OCP kernel operations are abstracted as a `Kernel` record:
`countSolids` is `_count_solids`, `solidsOf` the `TopExp_Explorer`
listing of solid sub-shapes, `fuse a b` the `BRepAlgoAPI_Fuse` returning
`none` when `op.IsDone()` is false, and `mkSolid` the `Solid(fused)`
wrapper.  `sys.exit(5)` becomes `Except.error` carrying the original
solid count printed in the `SPLIT_BODY` message.  The `IndexError` on
`solids[0]` when the explorer yields nothing is caught by the outer
`except` and passes the input through (the tooling-warning path). -/

structure Kernel (S : Type) where
  countSolids : S → Nat
  solidsOf : S → List S
  fuse : S → S → Option S
  mkSolid : S → S

/-- The sequential pairwise fusion loop: fuse left-to-right, `none` as
soon as one step reports failure. -/
def fuseSeq {S : Type} (K : Kernel S) (fused : S) : List S → Option S
  | [] => some fused
  | s :: rest =>
    match K.fuse fused s with
    | some f => fuseSeq K f rest
    | none => none

/-- `_ensure_single_solid(normalized)`. -/
def ensureSingleSolid {S : Type} (K : Kernel S) (normalized : S) : Except Nat S :=
  let count := K.countSolids normalized
  if count ≤ 1 then .ok normalized
  else
    match K.solidsOf normalized with
    | [] => .ok normalized
    | first :: rest =>
      match fuseSeq K first rest with
      | none => .error count
      | some fused =>
        let fusedShape := K.mkSolid fused
        if K.countSolids fusedShape = 1 then .ok fusedShape
        else .error count

/-! ## Validator part 1: `_collect_code_defined_names` / `strip_unknown_calls`
(`runner.py` lines 349-427)

A script is embedded as a flat list of one-line statements: the
statement at list position `i` occupies source line `i + 1`.  The
statement and expression grammars cover the binding and call forms the
claims quantify over, including one-line suite forms
(`for t in it: e`, `with c as n: e`, `def f(ps): e`) whose nested
expression shares the header's line.  `ast.walk` visits every node, so
all bare-name `Call` nodes of a statement carry that statement's line
number; `bad_lines[node.lineno] = func.id` therefore keeps, per line,
the name of the last unknown bare call in walk order.  The embedding
collects a statement's bare-call names in deterministic (preorder)
traversal order; the properties proved about it do not depend on which
order ties are broken in.  A replaced line
`pass  # stripped unknown: N` re-parses as a plain `Pass` statement,
embedded as `passStmt (some N)`. -/

mutual

/-- Expressions of the embedded script language. -/
inductive Expr where
  /-- A bare name. -/
  | name (s : String)
  /-- A literal with no names inside. -/
  | const
  /-- A call; the callee is a bare name iff `fn = Expr.name s`. -/
  | call (fn : Expr) (args : List Expr)
  /-- Attribute access `obj.field` (so `Expr.call (Expr.attr ..) ..`
  is a method call, which is never flagged). -/
  | attr (obj : Expr) (field : String)
  /-- A list display. -/
  | listE (elts : List Expr)
  /-- A comprehension `[elt for target in iter]`: binds `target`. -/
  | listComp (elt : Expr) (target : String) (iter : Expr)
  /-- A walrus `(target := value)`: binds `target`. -/
  | namedE (target : String) (value : Expr)

end

/-- One element of a tuple-unpacking target: a plain name or a starred
name (`ast.Starred` wrapping a `Name`). -/
inductive TargetElt where
  | name (s : String)
  | starredName (s : String)
deriving DecidableEq, Repr

/-- An assignment / for-loop target: a plain name or a tuple. -/
inductive AssignTarget where
  | name (s : String)
  | tup (elts : List TargetElt)
deriving DecidableEq, Repr

/-- An import alias `import modName` / `import modName as asname`. -/
structure ImportAlias where
  modName : String
  asname : Option String
deriving DecidableEq, Repr

/-- One-line statements of the embedded script language. -/
inductive Stmt where
  | exprStmt (e : Expr)
  | assign (targets : List AssignTarget) (value : Expr)
  | annAssign (target : String) (value : Expr)
  | importStmt (aliases : List ImportAlias)
  /-- One-line `for target in iter: <expression statement>`. -/
  | forStmt (target : AssignTarget) (iter : Expr) (body : Expr)
  /-- One-line `with ctx as asName: <expression statement>`. -/
  | withStmt (ctx : Expr) (asName : Option String) (body : Expr)
  /-- One-line `def name(params): <expression>`. -/
  | funcDef (name : String) (params : List String) (body : Expr)
  /-- One-line `class name: pass`. -/
  | classDef (name : String)
  /-- `pass`, optionally annotated `pass  # stripped unknown: note`. -/
  | passStmt (note : Option String)

/-- Names a single target contributes in `_collect_code_defined_names`:
`ast.Name` targets and the `ast.Name` elements of an `ast.Tuple` target;
starred elements are `ast.Starred` nodes, not `ast.Name`, and are
skipped by the source. -/
def targetNames : AssignTarget → List String
  | .name s => [s]
  | .tup elts => elts.filterMap fun e =>
      match e with
      | .name s => some s
      | .starredName _ => none

/-- The name an import alias contributes:
`alias.asname if alias.asname else alias.name.split(".")[0]`. -/
def importAliasName (a : ImportAlias) : String :=
  match a.asname with
  | some n => n
  | none => ⟨a.modName.toList.takeWhile (fun c => c ≠ '.')⟩

/-- The names one statement contributes in `_collect_code_defined_names`.
The source walks the full tree but only matches `FunctionDef`/`ClassDef`
names, `Assign`/`AnnAssign`/`For` name-or-tuple targets, import aliases
and `withitem` names: comprehension targets, walrus targets, starred
names and function parameters are *not* collected. -/
def stmtDefinedNames : Stmt → List String
  | .exprStmt _ => []
  | .assign targets _ => (targets.map targetNames).flatten
  | .annAssign t _ => [t]
  | .importStmt aliases => aliases.map importAliasName
  | .forStmt target _ _ => targetNames target
  | .withStmt _ asName _ =>
      match asName with
      | some n => [n]
      | none => []
  | .funcDef n _ _ => [n]
  | .classDef n => [n]
  | .passStmt _ => []

/-- `_collect_code_defined_names(tree)` over the whole script. -/
def collectCodeDefinedNames (script : List Stmt) : List String :=
  (script.map stmtDefinedNames).flatten

mutual

/-- All bare-call names in an expression, in traversal order
(the names `f` of `Call` nodes whose `func` is `ast.Name`). -/
def exprBareCalls : Expr → List String
  | .name _ => []
  | .const => []
  | .call fn args =>
    (match fn with
     | .name f => [f]
     | other => exprBareCalls other) ++ exprBareCallsList args
  | .attr obj _ => exprBareCalls obj
  | .listE elts => exprBareCallsList elts
  | .listComp elt _ iter => exprBareCalls elt ++ exprBareCalls iter
  | .namedE _ v => exprBareCalls v

/-- Bare-call names of a list of expressions, left to right. -/
def exprBareCallsList : List Expr → List String
  | [] => []
  | e :: es => exprBareCalls e ++ exprBareCallsList es

end

/-- All bare-call names occurring anywhere in one statement (all of
which share the statement's line number in the flat embedding). -/
def stmtBareCalls : Stmt → List String
  | .exprStmt e => exprBareCalls e
  | .assign _ v => exprBareCalls v
  | .annAssign _ v => exprBareCalls v
  | .importStmt _ => []
  | .forStmt _ iter body => exprBareCalls iter ++ exprBareCalls body
  | .withStmt ctx _ body => exprBareCalls ctx ++ exprBareCalls body
  | .funcDef _ _ body => exprBareCalls body
  | .classDef _ => []
  | .passStmt _ => []

/-- The unknown bare-call names of one statement: not in the registry
(`valid`) and not script-defined (`defined`). -/
def unknownCallsOf (valid defined : List String) (s : Stmt) : List String :=
  (stmtBareCalls s).filter fun n => ¬ (n ∈ valid ∨ n ∈ defined)

/-- The name recorded for this statement's line in `bad_lines`, if any:
`dict` assignment keeps the last unknown call in walk order. -/
def stmtBadName (valid defined : List String) (s : Stmt) : Option String :=
  (unknownCallsOf valid defined s).getLast?

/-- Rewrite of one line: flagged lines become
`pass  # stripped unknown: <name>`, other lines are copied. -/
def stripStmt (valid defined : List String) (s : Stmt) : Stmt × Option String :=
  match stmtBadName valid defined s with
  | some n => (.passStmt (some n), some n)
  | none => (s, none)

/-- The body of `strip_unknown_calls` once the tree has parsed, with
the script-defined-names set `defined` passed explicitly. -/
def stripWith (valid defined : List String) (script : List Stmt) :
    List Stmt × List String :=
  ((script.map (stripStmt valid defined)).map Prod.fst,
   (script.map (stripStmt valid defined)).filterMap Prod.snd)

/-- `strip_unknown_calls(code)` for a parseable script: returns the
rewritten script and the `removed` names in line order. -/
def stripUnknownCalls (valid : List String) (script : List Stmt) :
    List Stmt × List String :=
  stripWith valid (collectCodeDefinedNames script) script

/-! ## Validator part 2: `_indent_width` / `_is_try_header` /
`guard_fillet_chamfer` (`runner.py` lines 279-296 and 430-465)

This pass is purely line-based on raw text and runs in `main`
unconditionally after `strip_unknown_calls` — including on scripts that
failed to parse (where `strip_unknown_calls` returned its input
unchanged with no diagnostics).  A script is modelled as its list of
lines (Python splits on newlines and re-joins with `"\n"`). -/

/-- Leading-pattern test on character lists. -/
def charsMatchAt : List Char → List Char → Bool
  | [], _ => true
  | _ :: _, [] => false
  | a :: as, b :: bs => a == b && charsMatchAt as bs

/-- Substring containment on character lists (Python `needle in hay`). -/
def charsContain (needle : List Char) : List Char → Bool
  | [] => charsMatchAt needle []
  | b :: rest => charsMatchAt needle (b :: rest) || charsContain needle rest

/-- Python `needle in hay` on strings. -/
def containsSub (needle hay : String) : Bool :=
  charsContain needle.toList hay.toList

/-- Python `str.lstrip()`. -/
def lstripStr (s : String) : String :=
  ⟨s.toList.dropWhile Char.isWhitespace⟩

/-- Python `str.rstrip()`. -/
def rstripStr (s : String) : String :=
  ⟨(s.toList.reverse.dropWhile Char.isWhitespace).reverse⟩

/-- Python `str.strip()`. -/
def stripStr (s : String) : String :=
  lstripStr (rstripStr s)

/-- Python `s.split("#", 1)[0]`: the text before the first `#`. -/
def beforeHash (s : String) : String :=
  ⟨s.toList.takeWhile (fun c => c ≠ '#')⟩

/-- `_indent_width(line)`: spaces count 1, tabs count 4, stop at the
first other character. -/
def indentWidthAux : List Char → Nat
  | [] => 0
  | c :: rest =>
    if c == ' ' then 1 + indentWidthAux rest
    else if c == '\t' then 4 + indentWidthAux rest
    else 0

/-- `_indent_width` on a line. -/
def indentWidth (line : String) : Nat :=
  indentWidthAux line.toList

/-- `_is_try_header(stripped)`: text before the first `#`, right-
stripped, must end in `:`; the head before the colon must be `try`,
start with `except`, or be `else`/`finally`. -/
def isTryHeader (stripped : String) : Bool :=
  let header := rstripStr (beforeHash stripped)
  if header.toList.getLast? ≠ some ':' then false
  else
    let head := stripStr ⟨header.toList.dropLast⟩
    head.toList == "try".toList ||
      charsMatchAt "except".toList head.toList ||
      head.toList == "else".toList ||
      head.toList == "finally".toList

/-- The five replacement lines emitted for a wrapped fillet/chamfer
line, given its leading-whitespace prefix and stripped text. -/
def guardWrapLines (indentStr stripped : String) : List String :=
  [ indentStr ++ "# auto-fillet-guard",
    indentStr ++ "try:",
    indentStr ++ "    " ++ stripped,
    indentStr ++ "except Exception:",
    indentStr ++ "    pass" ]

/-- The loop body of `guard_fillet_chamfer`: `prot` is the `protected`
indentation stack (head = top of stack). -/
def guardGo (prot : List Nat) : List String → List String
  | [] => []
  | line :: rest =>
    let stripped := lstripStr line
    let indent := indentWidth line
    let prot2 := if stripped ≠ "" then prot.dropWhile (fun p => indent ≤ p) else prot
    let inTry : Bool :=
      match prot2 with
      | [] => false
      | p :: _ => decide (p < indent)
    let hasFillet := containsSub "fillet(" line || containsSub "chamfer(" line
    let isComment := charsMatchAt "#".toList stripped.toList
    let alreadyGuarded := containsSub "auto-fillet-guard" line
    let emitted :=
      if hasFillet && !inTry && !isComment && stripped ≠ "" && !alreadyGuarded then
        guardWrapLines ⟨line.toList.takeWhile Char.isWhitespace⟩ stripped
      else [line]
    let prot3 := if stripped ≠ "" && isTryHeader stripped then indent :: prot2 else prot2
    emitted ++ guardGo prot3 rest

/-- `guard_fillet_chamfer(code)` on the script's lines. -/
def guardFilletChamfer (lines : List String) : List String :=
  guardGo [] lines

/-- The whole sanitization step of `main` for a script whose
`ast.parse` raises `SyntaxError`: `strip_unknown_calls` returns the
text unchanged with no diagnostics, then `guard_fillet_chamfer` is
applied unconditionally. -/
def sanitizeUnparseable (lines : List String) : List String × List String :=
  (guardFilletChamfer lines, [])

/-! ## Concrete inputs used by witnesses and counterexamples -/

/-- The script `helper = mystery(<literal>)` / `helper(<literal>)`:
line 1 binds `helper` but also calls the unknown `mystery`. -/
def reboundScript : List Stmt :=
  [ .assign [.name "helper"] (.call (.name "mystery") [.const]),
    .exprStmt (.call (.name "helper") [.const]) ]

/-- The script `vals = [helper for helper in [abs]]` / `helper(<literal>)`:
`helper` is bound only as a comprehension variable. -/
def comprehensionScript : List Stmt :=
  [ .assign [.name "vals"] (.listComp (.name "helper") "helper" (.listE [.name "abs"])),
    .exprStmt (.call (.name "helper") [.const]) ]

/-- The script `ghost(<literal>)`: a single statement calling an
unknown name and binding nothing. -/
def ghostScript : List Stmt :=
  [ .exprStmt (.call (.name "ghost") [.const]) ]

/-- A toy kernel where every fusion succeeds by concatenation and the
`Solid` wrapper collapses to a single-solid shape. -/
def toyFuseAll : Kernel (List Nat) where
  countSolids := List.length
  solidsOf := fun xs => xs.map (fun n => [n])
  fuse := fun a b => some (a ++ b)
  mkSolid := fun _ => [0]

/-- A toy kernel where every fusion step reports failure. -/
def toyFuseFail : Kernel (List Nat) where
  countSolids := List.length
  solidsOf := fun xs => xs.map (fun n => [n])
  fuse := fun _ _ => none
  mkSolid := id

/-- A toy kernel where fusion succeeds but leaves disjoint pieces. -/
def toyFuseDisjoint : Kernel (List Nat) where
  countSolids := List.length
  solidsOf := fun xs => xs.map (fun n => [n])
  fuse := fun a b => some (a ++ b)
  mkSolid := id

end CADAI

/-! # Theorems

Each claim of the specification is settled by exactly one theorem
below (plus, where required, a witness instantiating its hypotheses and,
for corrected claims, a counterexample to the claim as stated). -/

namespace CADAI

set_option maxRecDepth 8000

/-- **C6** — For every mesh, the degenerate-face count is computed by the
three-tier fallback in order: a direct degenerate-face indicator if
present; else `total_faces - nondegenerate_count`, accepted *only* when
that difference lies within `[0, total_faces]` — when the subtraction
indicator is present but its window is rejected the count falls through
to the area tier (or to the default 0 if no areas are exposed); else
the number of faces whose area is non-finite or `≤ 1e-12`; a mesh
exposing only `area_faces = [0.5, 0.0, 1e-13, 0.3]` yields 2, and a
mesh exposing none of these signals yields 0. -/
theorem C6_count_degenerate_faces_tiers :
    (∀ m sel, m.degenerate_faces = some sel →
      countDegenerateFaces m = max 0 (countFaceSelector sel)) ∧
    (∀ m sel, m.degenerate_faces = none → m.nondegenerate_faces = some sel →
      0 ≤ countFaceSelector sel → countFaceSelector sel ≤ (m.facesCount : Int) →
      countDegenerateFaces m = (m.facesCount : Int) - countFaceSelector sel) ∧
    (∀ m sel areas, m.degenerate_faces = none → m.nondegenerate_faces = some sel →
      ¬ (0 ≤ countFaceSelector sel ∧ countFaceSelector sel ≤ (m.facesCount : Int)) →
      m.area_faces = some areas →
      countDegenerateFaces m = ((areas.filter isDegenerateArea).length : Int)) ∧
    (∀ m sel, m.degenerate_faces = none → m.nondegenerate_faces = some sel →
      ¬ (0 ≤ countFaceSelector sel ∧ countFaceSelector sel ≤ (m.facesCount : Int)) →
      m.area_faces = none →
      countDegenerateFaces m = 0) ∧
    (∀ m areas, m.degenerate_faces = none → m.nondegenerate_faces = none →
      m.area_faces = some areas →
      countDegenerateFaces m = ((areas.filter isDegenerateArea).length : Int)) ∧
    countDegenerateFaces
      ⟨none, none, 4, some [.num (1/2), .num 0, .num (1/10000000000000), .num (3/10)]⟩ = 2 ∧
    countDegenerateFaces ⟨none, none, 2, none⟩ = 0 := by
  refine ⟨?_, ?_, ?_, ?_, ?_, ?_, rfl⟩
  · intro m sel h
    simp [countDegenerateFaces, h]
  · intro m sel h1 h2 h3 h4
    simp [countDegenerateFaces, h1, h2, h3, h4]
  · intro m sel areas h1 h2 h3 h4
    simp [countDegenerateFaces, h1, h2, if_neg h3, h4]
  · intro m sel h1 h2 h3 h4
    simp [countDegenerateFaces, h1, h2, if_neg h3, h4]
  · intro m areas h1 h2 h3
    simp [countDegenerateFaces, h1, h2, h3]
  · simp only [countDegenerateFaces, isDegenerateArea, List.filter]
    norm_num

/-- **C6 witness** — the theorem applied at concrete meshes exercising
each tier: a boolean-mask direct indicator, an accepted index-list
non-degenerate indicator, a *rejected* non-degenerate indicator (5
entries against 3 faces, outside `[0, total]`) falling through to the
area tier, the same rejection falling through to the default 0, and the
plain area fallback. -/
theorem C6_count_degenerate_faces_tiers_witness :
    countDegenerateFaces
      ⟨some [.mask false, .mask true, .mask false, .mask true], none, 4, none⟩ = 2 ∧
    countDegenerateFaces ⟨none, some [.idx 0, .idx 1, .idx 2], 5, none⟩ = 2 ∧
    countDegenerateFaces
      ⟨none, some [.idx 0, .idx 1, .idx 2, .idx 3, .idx 4], 3, some [.num 0, .num 1]⟩ = 1 ∧
    countDegenerateFaces ⟨none, some [.idx 0, .idx 1, .idx 2, .idx 3, .idx 4], 3, none⟩ = 0 ∧
    countDegenerateFaces ⟨none, none, 3, some [.num (1/2), .nonfinite, .num 7]⟩ = 1 := by
  refine ⟨?_, ?_, ?_, ?_, ?_⟩
  · have h := C6_count_degenerate_faces_tiers.1
      ⟨some [.mask false, .mask true, .mask false, .mask true], none, 4, none⟩
      [.mask false, .mask true, .mask false, .mask true] rfl
    rw [h]; decide
  · have h := C6_count_degenerate_faces_tiers.2.1
      ⟨none, some [.idx 0, .idx 1, .idx 2], 5, none⟩
      [.idx 0, .idx 1, .idx 2] rfl rfl (by decide) (by decide)
    rw [h]; decide
  · have h := C6_count_degenerate_faces_tiers.2.2.1
      ⟨none, some [.idx 0, .idx 1, .idx 2, .idx 3, .idx 4], 3, some [.num 0, .num 1]⟩
      [.idx 0, .idx 1, .idx 2, .idx 3, .idx 4] [.num 0, .num 1]
      rfl rfl (by decide) rfl
    rw [h]
    simp only [isDegenerateArea, List.filter]
    norm_num
  · exact C6_count_degenerate_faces_tiers.2.2.2.1
      ⟨none, some [.idx 0, .idx 1, .idx 2, .idx 3, .idx 4], 3, none⟩
      [.idx 0, .idx 1, .idx 2, .idx 3, .idx 4] rfl rfl (by decide) rfl
  · have h := C6_count_degenerate_faces_tiers.2.2.2.2.1
      ⟨none, none, 3, some [.num (1/2), .nonfinite, .num 7]⟩
      [.num (1/2), .nonfinite, .num 7] rfl rfl rfl
    rw [h]
    simp only [isDegenerateArea, List.filter]
    norm_num

/-- **C1** — For every candidate tree, normalization fails with the
no-geometry error exactly when traversal records no exportable kernel
shape, fails with the mixed-content error carrying the first 3 invalid
entries exactly when an invalid entry was recorded alongside at least
one valid shape, and succeeds exactly when there is at least one shape
and no invalid entries; `{result: 5}` yields only the scalar invalid
entry and the no-geometry error, and `[shape_a, "oops"]` yields the
mixed-content error naming `string:oops`. -/
theorem C1_normalize_error_modes (result : Cand) :
    (normalizeResultForExport result = .error .noGeometry ↔
      (extractExportables result).1 = []) ∧
    ((∃ exs, normalizeResultForExport result = .error (.mixedContent exs)) ↔
      (extractExportables result).1 ≠ [] ∧ (extractExportables result).2 ≠ []) ∧
    (∀ exs, normalizeResultForExport result = .error (.mixedContent exs) →
      exs = (extractExportables result).2.take 3) ∧
    ((∃ n, normalizeResultForExport result = .ok n) ↔
      (extractExportables result).1 ≠ [] ∧ (extractExportables result).2 = []) ∧
    (extractExportables (.map [.scalar (.int 5)]) = ([], ["scalar:5"]) ∧
      normalizeResultForExport (.map [.scalar (.int 5)]) = .error .noGeometry) ∧
    normalizeResultForExport (.seq [.shape 1, .str "oops"]) =
      .error (.mixedContent ["string:oops"]) := by
  refine ⟨?_, ?_, ?_, ?_, ⟨rfl, rfl⟩, rfl⟩ <;>
  · rcases hE : extractExportables result with ⟨f, i⟩
    unfold normalizeResultForExport
    rw [hE]
    cases f with
    | nil => simp
    | cons a fs =>
      cases i with
      | nil =>
        cases fs with
        | nil => simp
        | cons b bs => simp
      | cons b bs =>
        cases fs with
        | nil => simp
        | cons c cs => simp

/-- **C1 witness** — the mixed-content-examples implication of the
theorem applied at `[shape_a, "oops"]`. -/
theorem C1_normalize_error_modes_witness :
    (["string:oops"] : List String) =
      (extractExportables (.seq [.shape 1, .str "oops"])).2.take 3 :=
  (C1_normalize_error_modes (.seq [.shape 1, .str "oops"])).2.2.1
    ["string:oops"] rfl

/-- **C9** — Normalizing `[a, [b, c]]` yields the same exportable set
(order-insensitive) as normalizing `[a, b, c]`, for all kernel shapes
`a`, `b`, `c`; and normalizing `[shape_a, shape_a]` (the same object
twice) yields an exportable set of size 1. -/
theorem C9_normalize_assoc_dedup :
    (∀ ia ib ic : Nat,
      ((extractExportables (.seq [.shape ia, .seq [.shape ib, .shape ic]])).1).toFinset =
      ((extractExportables (.seq [.shape ia, .shape ib, .shape ic])).1).toFinset) ∧
    (∀ ia : Nat, ((extractExportables (.seq [.shape ia, .shape ia])).1).length = 1) := by
  constructor
  · intro ia ib ic
    simp [extractExportables, addCandidate, addCandidates]
  · intro ia
    simp [extractExportables, addCandidate, addCandidates]

/-- **C5** — For every normalized solid with more than one solid
sub-shape: if any pairwise sequential fusion step reports failure, or if
all steps succeed but the fused result's solid count is not exactly 1,
the repairer terminates with the split-body fatal error reporting the
original solid count, and a successful return is never partially fused
(it has exactly one solid); a solid with count ≤ 1 passes through
unchanged. -/
theorem C5_ensure_single_solid {S : Type} (K : Kernel S) (normalized : S) :
    (K.countSolids normalized ≤ 1 → ensureSingleSolid K normalized = .ok normalized) ∧
    (∀ first rest, 1 < K.countSolids normalized →
      K.solidsOf normalized = first :: rest →
      fuseSeq K first rest = none →
      ensureSingleSolid K normalized = .error (K.countSolids normalized)) ∧
    (∀ first rest fused, 1 < K.countSolids normalized →
      K.solidsOf normalized = first :: rest →
      fuseSeq K first rest = some fused →
      K.countSolids (K.mkSolid fused) ≠ 1 →
      ensureSingleSolid K normalized = .error (K.countSolids normalized)) ∧
    (∀ r, 1 < K.countSolids normalized → K.solidsOf normalized ≠ [] →
      ensureSingleSolid K normalized = .ok r →
      K.countSolids r = 1) := by
  refine ⟨?_, ?_, ?_, ?_⟩
  · intro h
    unfold ensureSingleSolid
    rw [if_pos h]
  · intro first rest h1 h2 h3
    unfold ensureSingleSolid
    rw [if_neg (by omega), h2]
    simp [h3]
  · intro first rest fused h1 h2 h3 h4
    unfold ensureSingleSolid
    rw [if_neg (by omega), h2]
    simp [h3, h4]
  · intro r h1 h2 hok
    unfold ensureSingleSolid at hok
    rw [if_neg (by omega)] at hok
    cases hsol : K.solidsOf normalized with
    | nil => exact absurd hsol h2
    | cons first rest =>
      rw [hsol] at hok
      simp only at hok
      cases hf : fuseSeq K first rest with
      | none => simp [hf] at hok
      | some fused =>
        simp only [hf] at hok
        by_cases hcnt : K.countSolids (K.mkSolid fused) = 1
        · rw [if_pos hcnt] at hok
          cases hok
          exact hcnt
        · rw [if_neg hcnt] at hok
          cases hok

/-- **C5 witness** — the theorem applied to toy kernels: pass-through at
count 1, failure of a fusion step, technically-successful fusion leaving
disjoint pieces, and the single-solid guarantee of a successful repair. -/
theorem C5_ensure_single_solid_witness :
    ensureSingleSolid toyFuseAll [5] = .ok [5] ∧
    ensureSingleSolid toyFuseFail [1, 2] = .error 2 ∧
    ensureSingleSolid toyFuseDisjoint [1, 2] = .error 2 ∧
    toyFuseAll.countSolids [0] = 1 := by
  refine ⟨?_, ?_, ?_, ?_⟩
  · exact (C5_ensure_single_solid toyFuseAll [5]).1 (by decide)
  · exact (C5_ensure_single_solid toyFuseFail [1, 2]).2.1 [1] [[2]]
      (by decide) rfl rfl
  · exact (C5_ensure_single_solid toyFuseDisjoint [1, 2]).2.2.1 [1] [[2]] [1, 2]
      (by decide) rfl rfl (by decide)
  · exact (C5_ensure_single_solid toyFuseAll [1, 2]).2.2.2 [0]
      (by decide) (by simp [toyFuseAll]) rfl

/-- Invariant of the strict-improvement selection fold, starting from a
current best `(bs, b)`: the final state is either the unchanged start
(nothing scored strictly below `bs`) or the earliest element of the list
achieving the minimum (everything before it scores strictly higher,
everything after it scores no lower). -/
theorem selectGo_some_spec {α : Type} (f : α → ℚ) (l : List α) :
    ∀ (bs : ℚ) (b : α),
    ∃ s c, selectGo f (some (bs, b)) l = some (s, c) ∧
      ((s = bs ∧ c = b ∧ ∀ x ∈ l, ¬ f x < bs) ∨
       (∃ l1 l2, l = l1 ++ c :: l2 ∧ s = f c ∧ f c < bs ∧
         (∀ x ∈ l1, f c < f x) ∧ (∀ x ∈ l2, f c ≤ f x))) := by
  induction l with
  | nil =>
    intro bs b
    exact ⟨bs, b, rfl, .inl ⟨rfl, rfl, by simp⟩⟩
  | cons x rest ih =>
    intro bs b
    by_cases hx : f x < bs
    · obtain ⟨s, c, heq, hd⟩ := ih (f x) x
      refine ⟨s, c, ?_, ?_⟩
      · simpa [selectGo, if_pos hx] using heq
      · rcases hd with ⟨hs, hc, hall⟩ | ⟨l1, l2, hsplit, hs, hlt, hbef, haft⟩
        · subst hc hs
          exact .inr ⟨[], rest, rfl, rfl, hx, by simp, fun y hy => not_lt.mp (hall y hy)⟩
        · exact .inr ⟨x :: l1, l2, by rw [hsplit]; rfl, hs, lt_trans hlt hx,
            fun y hy => by
              rcases List.mem_cons.mp hy with h | h
              · subst h; exact hlt
              · exact hbef y h,
            haft⟩
    · obtain ⟨s, c, heq, hd⟩ := ih bs b
      refine ⟨s, c, ?_, ?_⟩
      · simpa [selectGo, if_neg hx] using heq
      · rcases hd with ⟨hs, hc, hall⟩ | ⟨l1, l2, hsplit, hs, hlt, hbef, haft⟩
        · refine .inl ⟨hs, hc, fun y hy => ?_⟩
          rcases List.mem_cons.mp hy with h | h
          · subst h; exact hx
          · exact hall y h
        · exact .inr ⟨x :: l1, l2, by rw [hsplit]; rfl, hs, hlt,
            fun y hy => by
              rcases List.mem_cons.mp hy with h | h
              · subst h; exact lt_of_lt_of_le hlt (not_lt.mp hx)
              · exact hbef y h,
            haft⟩

/-- **C7 counterexample** — the claim's stated composition of the
candidate list is false: "plus-and-minus 90 degrees about each of the
three axes" (6 rotations) plus identity, 180° about X, *three*
90°-combination diagonals and three 45°-tilt variants would total 14
candidates, but the source list has 12: it contains no `(0, 0, -90)`
(only +90 about Z) and only two 90°-combination diagonals. -/
theorem C7_orient_candidates_counterexample :
    orientCandidates.length = 12 ∧
    (0, 0, -90) ∉ orientCandidates ∧
    (orientCandidates.filter fun c => decide (c = (90, 90, 0)) ||
      decide (c = (90, 0, 90)) || decide (c = (0, 90, 90))).length = 2 := by
  refine ⟨rfl, by decide, rfl⟩

/-- **C7 (amended)** — The orientation search evaluates exactly the
fixed list of 12 candidate rotations — identity; ±90° about X; ±90°
about Y; +90° about Z; 180° about X; the two 90°-combination diagonals
`(90,90,0)` and `(90,0,90)`; the three 45°-tilt variants `(45,0,0)`,
`(0,45,0)` and `(45,45,0)` — scores each with
`height*1.0 + overhang_pct*2.0 - base_area*0.5`, and returns the
minimum-cost candidate, ties resolved to the earliest in list order:
every candidate before the returned one scores strictly higher, every
one after scores no lower. -/
theorem C7_orient_search :
    orientCandidates =
      [ (0, 0, 0), (90, 0, 0), (-90, 0, 0), (0, 90, 0), (0, -90, 0), (0, 0, 90),
        (180, 0, 0), (90, 90, 0), (90, 0, 90), (45, 0, 0), (0, 45, 0), (45, 45, 0) ] ∧
    (∀ m : OrientMetrics,
      orientScore m = m.height * 1 + m.overhangPct * 2 - m.baseArea * (1 / 2)) ∧
    ∀ metrics : Candidate → OrientMetrics,
      ∃ l1 l2,
        orientCandidates = l1 ++ selectBestOrientation metrics :: l2 ∧
        (∀ c ∈ l1, orientScore (metrics (selectBestOrientation metrics)) < orientScore (metrics c)) ∧
        (∀ c ∈ l2, orientScore (metrics (selectBestOrientation metrics)) ≤ orientScore (metrics c)) := by
  refine ⟨rfl, fun m => rfl, ?_⟩
  intro metrics
  obtain ⟨s, c, heq, hd⟩ := selectGo_some_spec (fun c => orientScore (metrics c))
    orientCandidates.tail (orientScore (metrics (0, 0, 0))) (0, 0, 0)
  have hsel : selectBestOrientation metrics = c := by
    unfold selectBestOrientation
    rw [show selectGo (fun c => orientScore (metrics c)) none orientCandidates =
          some (s, c) from heq]
  rcases hd with ⟨hs, hc, hall⟩ | ⟨l1, l2, hsplit, hs, hlt, hbef, haft⟩
  · refine ⟨[], orientCandidates.tail, ?_, by simp, ?_⟩
    · rw [hsel, hc]; rfl
    · intro x hx
      rw [hsel, hc]
      exact not_lt.mp (hall x hx)
  · refine ⟨(0, 0, 0) :: l1, l2, ?_, ?_, ?_⟩
    · rw [hsel, show orientCandidates = (0, 0, 0) :: orientCandidates.tail from rfl, hsplit]
      rfl
    · intro x hx
      rw [hsel]
      rcases List.mem_cons.mp hx with h | h
      · subst h; exact hlt
      · exact hbef x h
    · intro x hx
      rw [hsel]
      exact haft x hx

/-- **C7 witness** — the theorem applied to a constant metric function:
with all 12 scores equal, the tie resolves to the identity rotation,
the first candidate in list order. -/
theorem C7_orient_search_witness :
    selectBestOrientation (fun _ => ⟨1, 0, 0⟩) = (0, 0, 0) := by
  obtain ⟨l1, l2, hsplit, hbef, _⟩ := C7_orient_search.2.2 (fun _ => ⟨1, 0, 0⟩)
  cases l1 with
  | nil =>
    have h := congrArg List.head? hsplit
    simpa [orientCandidates] using h.symm
  | cons a l1' =>
    exfalso
    exact lt_irrefl _ (hbef a (List.mem_cons_self a l1'))

/-- **C8 counterexample** — the claim states the base-area tolerance as
`max(height * 1%, 0.1)`; the source computes
`height * 0.01 if height > 0 else 0.1`.  At height 5, a steeply
downward face whose centroid sits 0.07 above the lowest point is
outside the source's band (0.05) but inside the claimed band (0.1):
the source yields base area 0 where the claimed rule yields 1. -/
theorem C8_base_area_counterexample :
    baseAreaOf 0 5 [⟨7/100, -1, 1⟩] = 0 ∧
    specBaseAreaOf 0 5 [⟨7/100, -1, 1⟩] = 1 := by
  constructor
  · simp only [baseAreaOf, baseTolerance, List.filter]
    norm_num
  · simp only [specBaseAreaOf, List.filter]
    norm_num

/-- Sum of a filtered projection as a pointwise conditional sum. -/
theorem filter_decide_map_sum {α : Type} (p q : α → Prop)
    [DecidablePred p] [DecidablePred q] (g : α → ℚ) (l : List α) :
    ((l.filter fun a => decide (p a) && decide (q a)).map g).sum =
    (l.map fun a => if p a ∧ q a then g a else 0).sum := by
  induction l with
  | nil => rfl
  | cons a l ih =>
    by_cases hp : p a <;> by_cases hq : q a <;>
      simp [List.filter_cons, hp, hq, ih]

/-- **C8 (amended)** — For every rotated candidate mesh, `base_area` is
the total area of the faces whose centroid's vertical coordinate lies
within a tolerance of `height * 1%` when the height is positive (else
`0.1`) above the mesh's lowest point and whose outward normal's
vertical component is below `-0.9`. -/
theorem C8_base_area_amended (zMin height : ℚ) (faces : List FaceData) :
    baseAreaOf zMin height faces = amendedBaseAreaOf zMin height faces := by
  have h := filter_decide_map_sum
    (fun f : FaceData => f.centroidZ < zMin + baseTolerance height)
    (fun f : FaceData => f.normalZ < -(9/10 : ℚ))
    (fun f : FaceData => f.area) faces
  unfold baseAreaOf amendedBaseAreaOf
  unfold baseTolerance at h
  exact h

/-- Line `i` of the rewritten script is the per-line rewrite of line
`i` of the input. -/
theorem stripWith_fst_getElem (valid defined : List String) (script : List Stmt) (i : Nat) :
    ((stripWith valid defined script).1)[i]? =
      (script[i]?).map (fun s => (stripStmt valid defined s).1) := by
  unfold stripWith
  simp only [List.getElem?_map]
  cases script[i]? <;> rfl

/-- A statement flagged with name `N` contributes `N` to the `removed`
diagnostics. -/
theorem stripWith_snd_mem (valid defined : List String) (script : List Stmt)
    (stmt : Stmt) (N : String) (h : stmt ∈ script)
    (hb : stmtBadName valid defined stmt = some N) :
    N ∈ (stripWith valid defined script).2 := by
  unfold stripWith
  refine List.mem_filterMap.mpr ⟨stripStmt valid defined stmt, List.mem_map_of_mem _ h, ?_⟩
  unfold stripStmt
  rw [hb]

/-- An unflagged statement is copied unchanged with no diagnostic. -/
theorem stripStmt_of_none (valid defined : List String) (s : Stmt)
    (h : stmtBadName valid defined s = none) :
    stripStmt valid defined s = (s, none) := by
  unfold stripStmt
  rw [h]

/-- When no statement is flagged, stripping returns the script
unchanged with no diagnostics. -/
theorem stripWith_noop (valid defined : List String) (script : List Stmt)
    (h : ∀ s ∈ script, stmtBadName valid defined s = none) :
    stripWith valid defined script = (script, []) := by
  unfold stripWith
  refine Prod.ext ?_ ?_
  · show (script.map _).map _ = script
    rw [List.map_map]
    calc script.map _ = script.map id := List.map_congr_left (fun s hs => by
          simp [Function.comp, stripStmt_of_none valid defined s (h s hs)])
      _ = script := List.map_id script
  · show (script.map _).filterMap _ = []
    rw [List.filterMap_map]
    exact List.filterMap_eq_nil_iff.mpr (fun s hs => by
      simp [Function.comp, stripStmt_of_none valid defined s (h s hs)])

/-- A `pass` line contains no calls, hence is never flagged. -/
theorem stmtBadName_pass (valid defined : List String) (note : Option String) :
    stmtBadName valid defined (.passStmt note) = none := rfl

/-- Against the *same* defined-name set, no statement of a stripped
script is flagged: surviving lines were already clean and replaced
lines are `pass`. -/
theorem stripWith_result_clean (valid defined : List String) (script : List Stmt) :
    ∀ s' ∈ (stripWith valid defined script).1, stmtBadName valid defined s' = none := by
  intro s' hs'
  unfold stripWith at hs'
  rw [List.map_map] at hs'
  obtain ⟨s, hmem, rfl⟩ := List.mem_map.mp hs'
  cases hb : stmtBadName valid defined s with
  | none =>
    simp [Function.comp, stripStmt_of_none valid defined s hb, hb]
  | some n =>
    have : (stripStmt valid defined s).1 = .passStmt (some n) := by
      unfold stripStmt; rw [hb]
    simp [Function.comp, this, stmtBadName_pass]

/-- When every flagged statement binds no names, stripping preserves
the script-defined-name set (this is exactly what fails on
`reboundScript`, where the flagged line binds `helper`). -/
theorem stripWith_preserves_defined (valid defined : List String) (script : List Stmt)
    (hnobind : ∀ s ∈ script, stmtBadName valid defined s ≠ none → stmtDefinedNames s = []) :
    collectCodeDefinedNames ((stripWith valid defined script).1) =
      collectCodeDefinedNames script := by
  unfold stripWith collectCodeDefinedNames
  rw [List.map_map, List.map_map]
  congr 1
  refine List.map_congr_left (fun s hs => ?_)
  cases hb : stmtBadName valid defined s with
  | none => simp [Function.comp, stripStmt_of_none valid defined s hb]
  | some n =>
    have h1 : (stripStmt valid defined s).1 = .passStmt (some n) := by
      unfold stripStmt; rw [hb]
    have h2 : stmtDefinedNames s = [] := hnobind s hs (by rw [hb]; exact Option.some_ne_none n)
    simp only [Function.comp]
    rw [h1, h2]
    rfl

/-- **C2 counterexample** — the claim as stated fails on the script
`helper = mystery(...)` / `helper(...)`: the first sanitization strips
line 1 (diagnosing `mystery`), but that line was the binding of
`helper`, so re-sanitizing the result strips line 2 too and emits the
diagnostic `helper` instead of returning the script unchanged with no
diagnostics — stripping is not idempotent. -/
theorem C2_strip_not_idempotent_counterexample :
    (stripUnknownCalls [] reboundScript).1 =
      [.passStmt (some "mystery"), .exprStmt (.call (.name "helper") [.const])] ∧
    (stripUnknownCalls [] reboundScript).2 = ["mystery"] ∧
    (stripUnknownCalls [] ((stripUnknownCalls [] reboundScript).1)).2 = ["helper"] ∧
    (stripUnknownCalls [] ((stripUnknownCalls [] reboundScript).1)).1 =
      [.passStmt (some "mystery"), .passStmt (some "helper")] :=
  ⟨rfl, rfl, rfl, rfl⟩

/-- **C2 (amended)** — For every script containing a statement whose
only unknown bare-name call is `N` (neither in the registry nor defined
anywhere in the script), sanitizing replaces that statement's line with
a no-op annotated with `N` and reports a diagnostic naming `N`; and
provided no flagged statement binds a name, sanitizing the sanitized
script again returns it unchanged with no diagnostics. -/
theorem C2_strip_unknown_calls_amended (valid : List String) (script : List Stmt)
    (i : Nat) (stmt : Stmt) (N : String)
    (hstmt : script[i]? = some stmt)
    (huniq : unknownCallsOf valid (collectCodeDefinedNames script) stmt = [N])
    (hnobind : ∀ s ∈ script,
      stmtBadName valid (collectCodeDefinedNames script) s ≠ none →
      stmtDefinedNames s = []) :
    ((stripUnknownCalls valid script).1)[i]? = some (.passStmt (some N)) ∧
    N ∈ (stripUnknownCalls valid script).2 ∧
    stripUnknownCalls valid ((stripUnknownCalls valid script).1) =
      ((stripUnknownCalls valid script).1, []) := by
  have hbad : stmtBadName valid (collectCodeDefinedNames script) stmt = some N := by
    unfold stmtBadName
    rw [huniq]
    rfl
  refine ⟨?_, ?_, ?_⟩
  · unfold stripUnknownCalls
    rw [stripWith_fst_getElem, hstmt]
    show some (stripStmt valid (collectCodeDefinedNames script) stmt).1 = _
    unfold stripStmt
    rw [hbad]
  · unfold stripUnknownCalls
    exact stripWith_snd_mem valid _ script stmt N
      (by
        obtain ⟨hlt, rfl⟩ := List.getElem?_eq_some.mp hstmt
        exact List.getElem_mem hlt)
      hbad
  · unfold stripUnknownCalls
    rw [stripWith_preserves_defined valid _ script hnobind]
    exact stripWith_noop valid _ _
      (stripWith_result_clean valid (collectCodeDefinedNames script) script)

/-- **C2 witness** — the amended theorem at the one-line script
`ghost(...)` with registry `["print"]`: the line becomes an annotated
no-op, `ghost` is diagnosed, and a second sanitization is a no-op. -/
theorem C2_strip_unknown_calls_amended_witness :
    ((stripUnknownCalls ["print"] ghostScript).1)[0]? = some (.passStmt (some "ghost")) ∧
    "ghost" ∈ (stripUnknownCalls ["print"] ghostScript).2 ∧
    stripUnknownCalls ["print"] ((stripUnknownCalls ["print"] ghostScript).1) =
      ((stripUnknownCalls ["print"] ghostScript).1, []) :=
  C2_strip_unknown_calls_amended ["print"] ghostScript 0
    (.exprStmt (.call (.name "ghost") [.const])) "ghost" rfl rfl
    (by
      intro s hs _
      rw [List.mem_singleton.mp hs]
      rfl)

/-- **C3** — The claim holds for the binding forms the collector
walks, but the code misses several the language supports: contrary to
`_collect_code_defined_names`' own docstring, comprehension variables
are not collected — in
`vals = [helper for helper in [abs]]` / `helper(3)` the name `helper`
is bound by the comprehension, yet the collector returns only `vals`
and the sanitizer strips the `helper(3)` line. -/
theorem C3_comprehension_binding_stripped :
    collectCodeDefinedNames comprehensionScript = ["vals"] ∧
    stripUnknownCalls ["abs"] comprehensionScript =
      ([.assign [.name "vals"] (.listComp (.name "helper") "helper" (.listE [.name "abs"])),
        .passStmt (some "helper")], ["helper"]) :=
  ⟨rfl, rfl⟩

/-- The guard pass copies every line of a script in which no line
contains a `fillet(` or `chamfer(` substring, for any protection
stack. -/
theorem guardGo_no_fillet (lines : List String)
    (h : ∀ l ∈ lines, containsSub "fillet(" l = false ∧ containsSub "chamfer(" l = false) :
    ∀ prot, guardGo prot lines = lines := by
  induction lines with
  | nil => intro prot; rfl
  | cons line rest ih =>
    intro prot
    have hl := h line (List.mem_cons_self _ _)
    unfold guardGo
    simp only [hl.1, hl.2, Bool.or_self, Bool.false_and, Bool.false_or]
    simp only [Bool.false_eq_true, if_false]
    rw [ih (fun l hmem => h l (List.mem_cons_of_mem _ hmem)) _]
    rfl

/-- **C4 counterexample** — the claim as stated fails: for the
unparseable script `result.fillet(3` (unbalanced parenthesis), the
stripping pass returns the text unchanged with no diagnostics, but
`main` still runs the line-based fillet/chamfer guard, which rewrites
the single line into a five-line try/except block, so the whole
sanitization step is not byte-for-byte identity. -/
theorem C4_guard_runs_on_unparseable_counterexample :
    sanitizeUnparseable ["result.fillet(3"] ≠ (["result.fillet(3"], []) ∧
    sanitizeUnparseable ["result.fillet(3"] =
      (["# auto-fillet-guard", "try:", "    result.fillet(3",
        "except Exception:", "    pass"], []) := by
  constructor
  · decide
  · decide

/-- **C4 (amended)** — For every script that fails to parse, the
sanitizer never raises, the unknown-call stripping pass returns the
text unchanged with an empty diagnostic list, and the guarding pass —
which by design still runs, being line-based precisely so it can work
on unparseable code — leaves the script unmodified whenever no line
contains a `fillet(` or `chamfer(` substring. -/
theorem C4_sanitize_unparseable_amended (lines : List String)
    (h : ∀ l ∈ lines, containsSub "fillet(" l = false ∧ containsSub "chamfer(" l = false) :
    sanitizeUnparseable lines = (lines, []) := by
  unfold sanitizeUnparseable guardFilletChamfer
  rw [guardGo_no_fillet lines h []]

/-- **C4 witness** — the amended theorem at a two-line unparseable
script with no fillet/chamfer content. -/
theorem C4_sanitize_unparseable_amended_witness :
    sanitizeUnparseable ["x = (", "y = 1"] = (["x = (", "y = 1"], []) :=
  C4_sanitize_unparseable_amended _ (by decide)

/-- **C10** — Whatever combination of capability signals a mesh exposes
and whatever values they yield, `count_degenerate_faces` returns a
non-negative integer. -/
theorem C10_count_degenerate_faces_nonneg (m : Mesh) :
    0 ≤ countDegenerateFaces m := by
  obtain ⟨deg, nondeg, total, areas⟩ := m
  cases deg with
  | some sel => simp [countDegenerateFaces]
  | none =>
    cases nondeg with
    | some sel =>
      by_cases hc : 0 ≤ countFaceSelector sel ∧ countFaceSelector sel ≤ (total : Int)
      · simp only [countDegenerateFaces, if_pos hc]
        omega
      · simp only [countDegenerateFaces, if_neg hc]
        cases areas with
        | some a => positivity
        | none => simp
    | none =>
      cases areas with
      | some a => simp only [countDegenerateFaces]; positivity
      | none => simp [countDegenerateFaces]

end CADAI
